import Mathlib

/-!
# Shallow embedding of the OtterAI webhook ingestion pipeline

This file embeds the handler of `POST /api/v1/zapier/actions/otterai-analyze`
(`src/routes/zapier.js`, the revision kept as `src/unnamed/part_012`,
lines 658-999) together with the pipeline helpers it uses: the duration
parser, the sentiment mapper, the strengths/weaknesses comma-list parsing,
the performance-score clamp, the sales-call create/update step and the
analytics side-effect step.

JavaScript strings are modelled as `List Char`; JavaScript numbers that may
be `NaN` as `JsNum` (finite values exactly, as rationals); `null`/`undefined`
as `Option`.  Persistence failures of the storage client are injected through
an explicit `Env` of boolean outcomes, since the JavaScript code catches and
swallows them.  Shape validation (`express-validator`) only constrains the
types of the optional fields, which the typed `Payload` structure enforces by
construction, so the embedding covers the post-validation behaviour.
-/

abbrev JStr := List Char

/-- JavaScript truthiness of an optional string field: `undefined`, `null`
and `""` are falsy, every other string is truthy. -/
def truthyS : Option JStr → Bool
  | none => false
  | some s => !s.isEmpty

/-- JavaScript `a || b` where both operands are optional strings. -/
def jsOrS (a b : Option JStr) : Option JStr :=
  if truthyS a then a else b

/-- JavaScript `a || null` on an optional string. -/
def orNullS (a : Option JStr) : Option JStr :=
  if truthyS a then a else none

/-- A JavaScript number that may be `NaN`; finite values are modelled
exactly, as rationals. -/
inductive JsNum where
  | nan : JsNum
  | num (q : ℚ) : JsNum
deriving DecidableEq

/-- JavaScript truthiness of an optional numeric value: `null`, `NaN`
and `0` are falsy. -/
def truthyN : Option JsNum → Bool
  | none => false
  | some .nan => false
  | some (.num q) => q != 0

/-- JavaScript `a || b` on optional numeric values. -/
def jsNumOr (a b : Option JsNum) : Option JsNum :=
  if truthyN a then a else b

/-- ASCII decimal digit test (`\d` of the regex, and the digits accepted by
`parseInt`/`parseFloat`). -/
def jsIsDigit (c : Char) : Bool :=
  '0' ≤ c && c ≤ '9'

/-- Numeric value of a decimal digit character. -/
def digitVal (c : Char) : Nat :=
  c.toNat - '0'.toNat

/-- Value of a run of decimal digits, most significant first. -/
def digitsVal (ds : JStr) : Nat :=
  ds.foldl (fun a c => 10 * a + digitVal c) 0

/-- Maximal leading run of decimal digits, and the rest of the string. -/
def takeDigits : JStr → JStr × JStr
  | [] => ([], [])
  | c :: t =>
    if jsIsDigit c then
      let (d, r) := takeDigits t
      (c :: d, r)
    else ([], c :: t)

/-- JavaScript whitespace (`\s` and the characters `trim`/`parseInt` skip),
restricted to the characters that can reach this pipeline. -/
def jsIsWs (c : Char) : Bool :=
  c = ' ' || c = '\t' || c = '\n' || c = '\r' || c = '\x0b' || c = '\x0c'

/-- JavaScript `parseInt(s)` in base 10: skip leading whitespace, an optional
sign, then the maximal run of decimal digits; `none` models `NaN`. -/
def jsParseInt (s : JStr) : Option Int :=
  match s.dropWhile jsIsWs with
  | [] => none
  | c :: t =>
    if c = '-' then (fun n => -(n : Int)) <$> leadNat t
    else if c = '+' then (fun n => (n : Int)) <$> leadNat t
    else (fun n => (n : Int)) <$> leadNat (c :: t)
where
  /-- Value of the maximal leading digit run, `none` when there is none. -/
  leadNat (t : JStr) : Option Nat :=
    match takeDigits t with
    | ([], _) => none
    | (ds, _) => some (digitsVal ds)

/-- JavaScript `parseFloat(s)` restricted to plain decimal notation: skip
leading whitespace, an optional sign, integer digits and an optional
fractional part.  (Exponent and `Infinity` notations are not produced by the
payloads this pipeline parses and are not modelled.)  `JsNum.nan` models
`NaN`. -/
def jsParseFloat (s : JStr) : JsNum :=
  match s.dropWhile jsIsWs with
  | [] => .nan
  | c :: t =>
    if c = '-' then signed (-1) t
    else if c = '+' then signed 1 t
    else signed 1 (c :: t)
where
  /-- The unsigned part: digits with an optional `.` fraction. -/
  signed (sgn : ℚ) (t : JStr) : JsNum :=
    let (ds, r) := takeDigits t
    let fs : JStr :=
      match r with
      | '.' :: r2 => (takeDigits r2).1
      | _ => []
    if ds.isEmpty && fs.isEmpty then .nan
    else .num (sgn * ((digitsVal ds : ℚ) + (digitsVal fs : ℚ) / 10 ^ fs.length))

/-- JavaScript `Math.round` on a finite value: round half toward `+∞`. -/
def jsRound (q : ℚ) : Int :=
  ⌊q + 1 / 2⌋

/-- `Math.min(x, c)` where `x` may be `NaN` (which propagates) and `c` is a
finite literal. -/
def jsMin (x : JsNum) (c : ℚ) : JsNum :=
  match x with
  | .nan => .nan
  | .num q => .num (min q c)

/-- JavaScript `hay.includes(needle)`: substring containment. -/
def jsIncludes (hay needle : JStr) : Bool :=
  match hay with
  | [] => needle.isEmpty
  | _ :: t => needle.isPrefixOf hay || jsIncludes t needle

/-- JavaScript `s.split(sep)` for a one-character separator (`':'` and `','`
in this pipeline).  `"".split(sep)` is `[""]`, and separators at the ends
produce empty pieces, as in JavaScript. -/
def jsSplit (sep : Char) : JStr → List JStr
  | [] => [[]]
  | c :: t =>
    let r := jsSplit sep t
    if c = sep then [] :: r
    else
      match r with
      | h :: t2 => (c :: h) :: t2
      | [] => [[c]]

/-- JavaScript `s.trim()`, left half. -/
def jsTrimLeft (s : JStr) : JStr :=
  s.dropWhile jsIsWs

/-- JavaScript `s.trim()`, right half. -/
def jsTrimRight (s : JStr) : JStr :=
  (s.reverse.dropWhile jsIsWs).reverse

/-- JavaScript `s.trim()`. -/
def jsTrim (s : JStr) : JStr :=
  jsTrimRight (jsTrimLeft s)

/-- JavaScript `s.toLowerCase()` on the ASCII range the keyword checks
exercise. -/
def jsToLower (s : JStr) : JStr :=
  s.map Char.toLower

/-- JavaScript `s.replace(c, '')` for a one-character pattern: remove the
first occurrence of `c`. -/
def jsRemoveFirst (c : Char) : JStr → JStr
  | [] => []
  | x :: t => if x = c then t else x :: jsRemoveFirst c t

/-- The closed sentiment enum stored on a call record. -/
inductive Sentiment where
  | positive
  | neutral
  | negative
deriving DecidableEq

/-- Sentiment mapper (zapier.js lines 810-821 and 850-861): lower-case the
category; a positive-family keyword wins, else a negative-family keyword,
else neutral; a falsy category leaves the sentiment `null`. -/
def mapSentiment (cat : Option JStr) : Option Sentiment :=
  match cat with
  | none => none
  | some s =>
    if s.isEmpty then none
    else
      let l := jsToLower s
      if jsIncludes l "positive".data || jsIncludes l "impressive".data ||
          jsIncludes l "good".data then
        some .positive
      else if jsIncludes l "negative".data || jsIncludes l "bad".data ||
          jsIncludes l "ugly".data then
        some .negative
      else
        some .neutral

/-- First match of the regex `/(?:(\d+)h\s*)?(?:(\d+)m)?/` as
`(hours, minutes)` with absent groups as `0` (zapier.js lines 790-794).
Both groups are optional, so the leftmost match is always found at
position 0: an hour group is taken iff the string starts with digits
followed by `'h'`, then whitespace is skipped and a minute group is taken
iff digits followed by `'m'` come next. -/
def matchHoursMinutes (s : JStr) : Nat × Nat :=
  let (d1, r1) := takeDigits s
  if !d1.isEmpty && r1.head? = some 'h' then
    let r2 := r1.tail.dropWhile jsIsWs
    let (d2, r3) := takeDigits r2
    if !d2.isEmpty && r3.head? = some 'm' then (digitsVal d1, digitsVal d2)
    else (digitsVal d1, 0)
  else
    let (d2, r3) := takeDigits s
    if !d2.isEmpty && r3.head? = some 'm' then (0, digitsVal d2)
    else (0, 0)

/-- Duration computation from `meeting_details.duration` (zapier.js lines
770-804).  `none` is the JavaScript `null` that the variable starts from;
`some JsNum.nan` is the `NaN` which the `'h'` branch produces on an
unparseable hour value. -/
def parseDuration (d : Option JStr) : Option JsNum :=
  match d with
  | none => none
  | some s =>
    if s.isEmpty then none
    else if s.contains ':' then
      let parts := jsSplit ':' s
      if parts.length = 3 then
        let h := (jsParseInt (parts.getD 0 [])).getD 0
        let m := (jsParseInt (parts.getD 1 [])).getD 0
        let sec := (jsParseInt (parts.getD 2 [])).getD 0
        some (.num ((h * 3600 + m * 60 + sec : Int) : ℚ))
      else if parts.length = 2 then
        let m := (jsParseInt (parts.getD 0 [])).getD 0
        let sec := (jsParseInt (parts.getD 1 [])).getD 0
        some (.num ((m * 60 + sec : Int) : ℚ))
      else none
    else if s.contains 'm' then
      let hm := matchHoursMinutes s
      some (.num ((hm.1 * 3600 + hm.2 * 60 : Nat) : ℚ))
    else if s.contains 'h' then
      match jsParseFloat (jsRemoveFirst 'h' s) with
      | .nan => some .nan
      | .num q => some (.num ((jsRound (q * 3600) : Int) : ℚ))
    else
      match jsParseInt s with
      | none => none
      | some n => if n = 0 then none else some (.num (n : ℚ))

/-- strengths/weaknesses parsing (zapier.js lines 764-768):
`x ? x.split(',').map(s => s.trim()).filter(s => s) : []`. -/
def parseCommaList (x : Option JStr) : List JStr :=
  match x with
  | none => []
  | some s =>
    if s.isEmpty then []
    else ((jsSplit ',' s).map jsTrim).filter (fun e => !e.isEmpty)

/-- Performance score (zapier.js lines 760-762):
`sentiment_analysis?.meeting_score ? Math.min(parseFloat(ms), 9.99) : null`. -/
def computePerfScore (ms : Option JStr) : Option JsNum :=
  if truthyS ms then some (jsMin (jsParseFloat (ms.getD [])) (999 / 100))
  else none

/-- A JavaScript `Date` value as this handler constructs them. -/
inductive JsDate where
  | ofStr (s : JStr)
  | now
  | nowPlusDays (n : Nat)
deriving DecidableEq

/-- The `sentiment_analysis` block of the payload. -/
structure SentimentAnalysis where
  sentiment_category : Option JStr := none
  strengths : Option JStr := none
  weaknesses : Option JStr := none
  meeting_score : Option JStr := none
deriving DecidableEq

/-- The `calendar_guests` field: an array, a plain string, or absent. -/
inductive CalGuests where
  | arr (l : List JStr)
  | str (s : JStr)
  | absent
deriving DecidableEq

/-- The `user_info` / `user_identification` block of the payload. -/
structure UserBlock where
  user_name : Option JStr := none
  user_email : Option JStr := none
  calendar_guests : CalGuests := .absent
deriving DecidableEq

/-- The `meeting_details` block of the payload. -/
structure MeetingDetails where
  duration : Option JStr := none
  start_datetime : Option JStr := none
  end_datetime : Option JStr := none
deriving DecidableEq

/-- The request body after shape validation (zapier.js lines 682-692).
Record and tenant identifiers are modelled as naturals; in the source they
are UUID strings, which are truthy whenever present. -/
structure Payload where
  transcript : Option JStr := none
  captured_data_url : Option JStr := none
  sentiment_analysis : Option SentimentAnalysis := none
  user_identification : Option UserBlock := none
  user_info : Option UserBlock := none
  meeting_id : Option JStr := none
  meeting_details : Option MeetingDetails := none
  salesCallId : Option Nat := none
  organizationId : Option Nat := none
deriving DecidableEq

/-- `formatCalendarGuests` (zapier.js lines 695-700): join an array with
`', '`, pass a string through, and turn everything falsy into `''`. -/
def formatCalendarGuests : CalGuests → JStr
  | .arr l => List.intercalate ", ".data l
  | .str s => s
  | .absent => []

/-- The `user_info` object placed inside the analysis blob: the raw fields
spread out, plus the formatted guest list. -/
structure AnalysisUserInfo where
  user_name : Option JStr
  user_email : Option JStr
  calendar_guests : CalGuests
  calendar_guests_formatted : JStr
deriving DecidableEq

/-- The `analysis_data` blob stored on the call record. -/
structure AnalysisData where
  meeting_id : Option JStr
  sentiment_analysis : Option SentimentAnalysis
  user_identification : Option UserBlock
  user_info : AnalysisUserInfo
  meeting_details : Option MeetingDetails
  transcript : Option JStr
  captured_data_url : Option JStr
deriving DecidableEq

/-- `analysisData` (zapier.js lines 747-758). -/
def mkAnalysisData (p : Payload) : AnalysisData :=
  { meeting_id := p.meeting_id
    sentiment_analysis := p.sentiment_analysis
    user_identification := p.user_identification
    user_info :=
      { user_name := p.user_info.bind (fun u => u.user_name)
        user_email := p.user_info.bind (fun u => u.user_email)
        calendar_guests :=
          match p.user_info with
          | some u => u.calendar_guests
          | none => .absent
        calendar_guests_formatted :=
          formatCalendarGuests
            (match p.user_info with
             | some u => u.calendar_guests
             | none => .absent) }
    meeting_details := p.meeting_details
    transcript := orNullS p.transcript
    captured_data_url := orNullS p.captured_data_url }

/-- A row of the `sales_calls` table, with the columns this handler reads or
writes. -/
structure SalesCall where
  id : Nat
  organization_id : Option Nat
  sales_representative_id : Option Nat
  customer_name : JStr
  customer_email : Option JStr
  appointment_date : JsDate
  call_start_time : Option JsDate
  call_end_time : Option JsDate
  status : JStr
  outcome : Option JStr
  analysis_data : Option AnalysisData
  transcript_url : Option JStr
  performance_score : Option JsNum
  strengths : List JStr
  weaknesses : List JStr
  recommendations : List JStr
  key_topics_covered : List JStr
  objections_handled : List JStr
  customer_sentiment : Option Sentiment
  script_compliance : Option JsNum
  duration : Option JsNum
  otter_ai_recording_id : Option JStr
  recording_url : Option JStr
  sale_amount : Option JsNum
deriving DecidableEq

/-- The fields written by `salesCall.update({...})` on the update branch
(zapier.js lines 823-843); every other column keeps its stored value. -/
def updatedCall (sc : SalesCall) (p : Payload) : SalesCall :=
  let sd := p.meeting_details.bind (fun m => m.start_datetime)
  let ed := p.meeting_details.bind (fun m => m.end_datetime)
  { sc with
    analysis_data := some (mkAnalysisData p)
    transcript_url := jsOrS p.transcript sc.transcript_url
    performance_score := computePerfScore (p.sentiment_analysis.bind (fun a => a.meeting_score))
    strengths := parseCommaList (p.sentiment_analysis.bind (fun a => a.strengths))
    weaknesses := parseCommaList (p.sentiment_analysis.bind (fun a => a.weaknesses))
    recommendations := []
    key_topics_covered := []
    objections_handled := []
    customer_sentiment := mapSentiment (p.sentiment_analysis.bind (fun a => a.sentiment_category))
    script_compliance := none
    call_start_time := if truthyS sd then some (.ofStr (sd.getD [])) else sc.call_start_time
    call_end_time := if truthyS ed then some (.ofStr (ed.getD [])) else sc.call_end_time
    duration := jsNumOr (parseDuration (p.meeting_details.bind (fun m => m.duration))) sc.duration
    otter_ai_recording_id := jsOrS p.meeting_id sc.otter_ai_recording_id
    recording_url := jsOrS p.captured_data_url sc.recording_url
    outcome := none }

/-- `salesCallData` passed to `SalesCall.create` on the create branch
(zapier.js lines 863-890). -/
def newCall (p : Payload) (newId : Nat) : SalesCall :=
  let sd := p.meeting_details.bind (fun m => m.start_datetime)
  let ed := p.meeting_details.bind (fun m => m.end_datetime)
  { id := newId
    organization_id := p.organizationId
    sales_representative_id := none
    customer_name :=
      (jsOrS (p.user_info.bind (fun u => u.user_name))
        (jsOrS (p.user_identification.bind (fun u => u.user_name))
          (some "Unknown Customer".data))).getD []
    customer_email :=
      jsOrS (p.user_info.bind (fun u => u.user_email))
        (orNullS (p.user_identification.bind (fun u => u.user_email)))
    appointment_date := if truthyS sd then .ofStr (sd.getD []) else .now
    call_start_time := if truthyS sd then some (.ofStr (sd.getD [])) else none
    call_end_time := if truthyS ed then some (.ofStr (ed.getD [])) else none
    status := "completed".data
    outcome := none
    analysis_data := some (mkAnalysisData p)
    transcript_url := orNullS p.transcript
    performance_score := computePerfScore (p.sentiment_analysis.bind (fun a => a.meeting_score))
    strengths := parseCommaList (p.sentiment_analysis.bind (fun a => a.strengths))
    weaknesses := parseCommaList (p.sentiment_analysis.bind (fun a => a.weaknesses))
    recommendations := []
    key_topics_covered := []
    objections_handled := []
    customer_sentiment := mapSentiment (p.sentiment_analysis.bind (fun a => a.sentiment_category))
    script_compliance := none
    duration := parseDuration (p.meeting_details.bind (fun m => m.duration))
    otter_ai_recording_id := orNullS p.meeting_id
    recording_url := orNullS p.captured_data_url
    sale_amount := none }

/-- The subject interpolated into the analytics `report_name`
(`createdSalesCallId || salesCallId || meeting_id || 'General'`). -/
inductive ReportSubject where
  | call (id : Nat)
  | meeting (s : JStr)
  | general
deriving DecidableEq

/-- The `report_data` blob of an analytics record (zapier.js lines
927-937). -/
structure ReportData where
  transcript : Option JStr
  captured_data_url : Option JStr
  sentiment_analysis : Option SentimentAnalysis
  user_identification : Option UserBlock
  user_info : Option UserBlock
  meeting_details : Option MeetingDetails
  meeting_id : Option JStr
  sales_call_id : Option Nat
  analysis_timestamp : JsDate
deriving DecidableEq

/-- A row of the `analytics` table as this handler creates it (zapier.js
lines 922-946). -/
structure Analytics where
  organization_id : Option Nat
  user_id : Option Nat
  report_type : JStr
  report_subject : ReportSubject
  report_data : ReportData
  date_range_start : JsDate
  date_range_end : JsDate
  generated_at : JsDate
  expires_at : JsDate
  is_scheduled : Bool
deriving DecidableEq

/-- The persistent state visible to the handler: the sales-call rows, the
set of existing organization ids, the analytics rows, and the id the next
`SalesCall.create` receives. -/
structure Store where
  salesCalls : List SalesCall
  organizations : List Nat
  analytics : List Analytics
  nextId : Nat
deriving DecidableEq

/-- Injected outcomes of the storage calls the handler wraps in
`try`/`catch`: whether the sales-call step throws, whether the analytics
insert throws, and whether the organization lookup throws. -/
structure Env where
  salesCallFail : Bool := false
  analyticsFail : Bool := false
  orgLookupFail : Bool := false
deriving DecidableEq

/-- `SalesCall.findByPk(id)`. -/
def findByPk (st : Store) (id : Nat) : Option SalesCall :=
  st.salesCalls.find? (fun sc => sc.id == id)

/-- The sales-call `try` block (zapier.js lines 741-900): update when
`salesCallId` is supplied and found, create when no `salesCallId` is
supplied, do nothing when an id is supplied but not found; a thrown
persistence error is caught and leaves the store unchanged.  Returns the
store and `createdSalesCallId`. -/
def salesCallStep (p : Payload) (st : Store) (env : Env) : Store × Option Nat :=
  if env.salesCallFail then (st, none)
  else
    match p.salesCallId with
    | some id =>
      match findByPk st id with
      | some _ =>
        ({ st with
            salesCalls := st.salesCalls.map
              (fun c => if c.id == id then updatedCall c p else c) },
          some id)
      | none => (st, none)
    | none =>
      let nc := newCall p st.nextId
      ({ st with
          salesCalls := st.salesCalls ++ [nc]
          nextId := st.nextId + 1 },
        some nc.id)

/-- The analytics organization existence check (zapier.js lines 907-920):
keep the supplied organization id only when the lookup succeeds and finds
the organization, otherwise store `null`. -/
def analyticsOrgId (p : Payload) (st : Store) (env : Env) : Option Nat :=
  match p.organizationId with
  | none => none
  | some oid =>
    if env.orgLookupFail then none
    else if st.organizations.contains oid then some oid
    else none

/-- The record handed to `Analytics.create` (zapier.js lines 922-946). -/
def mkAnalytics (p : Payload) (orgId : Option Nat) (resolvedId : Option Nat) :
    Analytics :=
  { organization_id := orgId
    user_id := none
    report_type := "otterai_analysis".data
    report_subject :=
      match resolvedId with
      | some i => .call i
      | none =>
        if truthyS p.meeting_id then .meeting (p.meeting_id.getD [])
        else .general
    report_data :=
      { transcript := orNullS p.transcript
        captured_data_url := orNullS p.captured_data_url
        sentiment_analysis := p.sentiment_analysis
        user_identification := p.user_identification
        user_info := p.user_info
        meeting_details := p.meeting_details
        meeting_id := p.meeting_id
        sales_call_id := resolvedId
        analysis_timestamp := .now }
    date_range_start := .now
    date_range_end := .now
    generated_at := .now
    expires_at := .nowPlusDays 30
    is_scheduled := false }

/-- The two acknowledgment messages of the success response. -/
inductive AckMessage where
  | createdMsg
  | processedMsg
deriving DecidableEq

/-- The observable outcome of one request: the final store, the HTTP status
and success flag, the response `data` fields the claims talk about, and
whether the analytics `try` block was entered at all. -/
structure HandlerResult where
  store : Store
  status : Nat
  success : Bool
  message : AckMessage
  dataSalesCallId : Option Nat
  dataOrganizationId : Option Nat
  salesCallCreated : Bool
  analyticsAttempted : Bool
  createdSalesCallId : Option Nat
deriving DecidableEq

/-- The POST `/actions/otterai-analyze` handler after shape validation
(zapier.js lines 664-999): run the sales-call step, then — only when
`sentiment_analysis` is present and `createdSalesCallId || salesCallId` is
truthy — attempt the analytics insert, and answer 200 with
`salesCallCreated: !!createdSalesCallId` and
`salesCallId: createdSalesCallId || salesCallId`. -/
def otteraiAnalyze (p : Payload) (st : Store) (env : Env) : HandlerResult :=
  let step := salesCallStep p st env
  let st1 := step.1
  let createdId := step.2
  let resolvedId := if createdId.isSome then createdId else p.salesCallId
  let attempted := p.sentiment_analysis.isSome && resolvedId.isSome
  let st2 :=
    if attempted && !env.analyticsFail then
      { st1 with
          analytics :=
            st1.analytics ++ [mkAnalytics p (analyticsOrgId p st1 env) resolvedId] }
    else st1
  { store := st2
    status := 200
    success := true
    message := if createdId.isSome then .createdMsg else .processedMsg
    dataSalesCallId := resolvedId
    dataOrganizationId := p.organizationId
    salesCallCreated := createdId.isSome
    analyticsAttempted := attempted
    createdSalesCallId := createdId }

/-! ## Concrete fixtures used to instantiate the theorems -/

/-- A store with no rows and no organizations. -/
def emptyStore : Store :=
  { salesCalls := [], organizations := [], analytics := [], nextId := 1 }

/-- The payload with every optional field absent. -/
def emptyPayload : Payload := {}

/-- No injected persistence failures. -/
def okEnv : Env := {}

/-- The sales-call step throws; everything else succeeds. -/
def failEnv : Env := { salesCallFail := true }

/-- A fully populated stored call record, used to observe which columns an
update rewrites. -/
def sampleCall : SalesCall :=
  { id := 1
    organization_id := some 5
    sales_representative_id := some 9
    customer_name := "Alice".data
    customer_email := some "alice.example".data
    appointment_date := .ofStr "2024-01-01T09:00".data
    call_start_time := some (.ofStr "2024-01-01T10:00".data)
    call_end_time := some (.ofStr "2024-01-01T11:00".data)
    status := "completed".data
    outcome := some "won".data
    analysis_data := none
    transcript_url := some "stored-transcript".data
    performance_score := some (.num 5)
    strengths := ["closing".data]
    weaknesses := ["pacing".data]
    recommendations := ["follow up".data]
    key_topics_covered := ["pricing".data]
    objections_handled := ["budget".data]
    customer_sentiment := some .positive
    script_compliance := some (.num 1)
    duration := some (.num 1800)
    otter_ai_recording_id := some "rec-1".data
    recording_url := some "stored-recording".data
    sale_amount := some (.num 100) }

/-- A store holding `sampleCall` and organization `5`. -/
def storeWithCall : Store :=
  { salesCalls := [sampleCall], organizations := [5], analytics := [], nextId := 2 }

/-- A payload that only supplies a record identifier. -/
def idOnlyPayload : Payload := { salesCallId := some 1 }

/-- A payload with sentiment analysis and a tenant id that exists in no
store used here. -/
def strangerOrgPayload : Payload :=
  { sentiment_analysis := some { sentiment_category := some "good".data }
    organizationId := some 7 }

/-- A payload supplying a record identifier and sentiment analysis. -/
def idSentimentPayload : Payload :=
  { salesCallId := some 1
    sentiment_analysis := some { sentiment_category := some "good".data } }

/-- A payload whose meeting score overflows the storage precision. -/
def scorePayload : Payload :=
  { sentiment_analysis := some { meeting_score := some "15.7".data } }

/-- A payload with comma lists that need trimming and dropping. -/
def listPayload : Payload :=
  { sentiment_analysis := some
      { strengths := some " rapport ,  , discovery".data
        weaknesses := some ",".data } }

/-! ## Spec-side predicates (stated independently of the JS helpers) -/

/-- A nonempty string of decimal digits. -/
def DigitStr (ds : JStr) : Prop :=
  ds ≠ [] ∧ ∀ c ∈ ds, jsIsDigit c = true

instance : DecidablePred DigitStr := fun ds =>
  inferInstanceAs (Decidable (ds ≠ [] ∧ ∀ c ∈ ds, jsIsDigit c = true))

/-- `needle` occurs as a contiguous substring of `hay`. -/
def SubStr (needle hay : JStr) : Prop :=
  ∃ a b, hay = a ++ needle ++ b

/-- The keyword families of the sentiment mapper. -/
def posFamily : List JStr :=
  ["positive".data, "impressive".data, "good".data]

/-- The negative-family keywords of the sentiment mapper. -/
def negFamily : List JStr :=
  ["negative".data, "bad".data, "ugly".data]

/-! ## Supporting lemmas -/

/-- Branch equation: a thrown sales-call step leaves the store unchanged and
resolves no id. -/
theorem salesCallStep_fail (p : Payload) (st : Store) (env : Env)
    (h : env.salesCallFail = true) :
    salesCallStep p st env = (st, none) := by
  unfold salesCallStep
  rw [h]
  simp

/-- Branch equation: with no supplied id, the step appends the freshly
created row and resolves its id. -/
theorem salesCallStep_create (p : Payload) (st : Store) (env : Env)
    (hf : env.salesCallFail = false) (hid : p.salesCallId = none) :
    salesCallStep p st env =
      ({ st with
          salesCalls := st.salesCalls ++ [newCall p st.nextId]
          nextId := st.nextId + 1 },
        some st.nextId) := by
  unfold salesCallStep
  rw [hf, hid]
  simp [newCall]

/-- Branch equation: with a supplied id that is found, the step rewrites
exactly that row through `updatedCall` and resolves the supplied id. -/
theorem salesCallStep_found (p : Payload) (st : Store) (env : Env) (i : Nat)
    (sc : SalesCall) (hf : env.salesCallFail = false)
    (hid : p.salesCallId = some i) (hfind : findByPk st i = some sc) :
    salesCallStep p st env =
      ({ st with
          salesCalls := st.salesCalls.map
            (fun c => if c.id == i then updatedCall c p else c) },
        some i) := by
  unfold salesCallStep
  rw [hf, hid]
  simp [hfind]

/-- Branch equation: with a supplied id that is not found, the step does
nothing and resolves no id. -/
theorem salesCallStep_missing (p : Payload) (st : Store) (env : Env) (i : Nat)
    (hf : env.salesCallFail = false) (hid : p.salesCallId = some i)
    (hfind : findByPk st i = none) :
    salesCallStep p st env = (st, none) := by
  unfold salesCallStep
  rw [hf, hid]
  simp [hfind]

/-- The analytics side-effect never touches the sales-call rows: the final
rows are those left by the sales-call step. -/
theorem salesCalls_of_analyze (p : Payload) (st : Store) (env : Env) :
    (otteraiAnalyze p st env).store.salesCalls
      = (salesCallStep p st env).1.salesCalls := by
  unfold otteraiAnalyze
  dsimp only
  rw [apply_ite (fun s : Store => s.salesCalls)]
  dsimp only
  exact ite_self _

/-- Clamp bound: a finite computed performance score never exceeds 9.99. -/
theorem computePerfScore_le (ms : Option JStr) (q : ℚ)
    (h : computePerfScore ms = some (.num q)) : q ≤ 999 / 100 := by
  unfold computePerfScore at h
  split at h
  · unfold jsMin at h
    split at h
    · exact absurd h (by simp)
    · simp only [Option.some.injEq, JsNum.num.injEq] at h
      exact h ▸ min_le_right _ _
  · exact absurd h (by simp)

/-- Any row present after the handler that was not present before is either
the update image of a stored row or the freshly created row. -/
theorem new_record_shape (p : Payload) (st : Store) (env : Env) (r : SalesCall)
    (hmem : r ∈ (otteraiAnalyze p st env).store.salesCalls)
    (hnew : r ∉ st.salesCalls) :
    (∃ c ∈ st.salesCalls, r = updatedCall c p) ∨ r = newCall p st.nextId := by
  have hm : r ∈ (salesCallStep p st env).1.salesCalls := by
    rwa [salesCalls_of_analyze] at hmem
  cases hfe : env.salesCallFail with
  | true =>
    rw [salesCallStep_fail p st env hfe] at hm
    exact absurd hm hnew
  | false =>
    cases hid : p.salesCallId with
    | none =>
      rw [salesCallStep_create p st env hfe hid] at hm
      simp only [List.mem_append, List.mem_singleton] at hm
      rcases hm with hm | hm
      · exact absurd hm hnew
      · exact Or.inr hm
    | some i =>
      cases hfind : findByPk st i with
      | none =>
        rw [salesCallStep_missing p st env i hfe hid hfind] at hm
        exact absurd hm hnew
      | some sc =>
        rw [salesCallStep_found p st env i sc hfe hid hfind] at hm
        simp only [List.mem_map] at hm
        obtain ⟨c, hc, hr⟩ := hm
        by_cases hci : (c.id == i) = true
        · rw [hci] at hr
          simp only [if_true] at hr
          exact Or.inl ⟨c, hc, hr.symm⟩
        · rw [Bool.not_eq_true] at hci
          rw [hci] at hr
          simp only [Bool.false_eq_true, if_false] at hr
          exact absurd (hr ▸ hc) hnew

/-! ## Claims -/

/-- C8: for every payload, any call record this handler creates or rewrites
carries a performance score that, when present as a finite number, is at
most 9.99 — the parsed meeting score is clamped to the storage precision
ceiling. -/
theorem C8_perf_score_clamped (p : Payload) (st : Store) (env : Env)
    (r : SalesCall) (hmem : r ∈ (otteraiAnalyze p st env).store.salesCalls)
    (hnew : r ∉ st.salesCalls) (q : ℚ)
    (hq : r.performance_score = some (.num q)) : q ≤ 999 / 100 := by
  rcases new_record_shape p st env r hmem hnew with ⟨c, _, rfl⟩ | rfl
  · exact computePerfScore_le _ q hq
  · exact computePerfScore_le _ q hq

/-- Witness for C8 at a meeting score of `"15.7"`: the stored score is the
clamp ceiling and the theorem applies to it. -/
theorem C8_witness : ((999 : ℚ) / 100) ≤ 999 / 100 :=
  C8_perf_score_clamped scorePayload emptyStore okEnv
    (newCall scorePayload 1)
    (by
      rw [salesCalls_of_analyze, salesCallStep_create _ _ _ rfl rfl]
      exact List.mem_append_right _ (List.mem_singleton.mpr rfl))
    (List.not_mem_nil _) (999 / 100)
    (by
      have h1 : jsParseFloat "15.7".data = .num (157 / 10) := by
        simp [jsParseFloat, jsParseFloat.signed, takeDigits, jsIsDigit,
          jsIsWs, digitsVal, digitVal]
        norm_num
      simp [newCall, scorePayload, computePerfScore, truthyS, h1, jsMin]
      norm_num)

/-- C10: every update of an existing call record through this endpoint
unconditionally sets the record's outcome to absent, whatever it held
before. -/
theorem C10_outcome_cleared (p : Payload) (st : Store) (env : Env) (i : Nat)
    (sc : SalesCall) (hid : p.salesCallId = some i)
    (hfind : findByPk st i = some sc) (hok : env.salesCallFail = false) :
    (otteraiAnalyze p st env).store.salesCalls
      = st.salesCalls.map (fun c => if c.id == i then updatedCall c p else c) ∧
    ∀ c : SalesCall, (updatedCall c p).outcome = none := by
  refine ⟨?_, fun c => rfl⟩
  rw [salesCalls_of_analyze, salesCallStep_found p st env i sc hok hid hfind]

/-- Witness for C10: updating `sampleCall` (stored outcome `"won"`) with a
payload that carries only the record id clears the outcome. -/
theorem C10_witness :
    sampleCall.outcome = some "won".data ∧
    (otteraiAnalyze idOnlyPayload storeWithCall okEnv).store.salesCalls
      = [updatedCall sampleCall idOnlyPayload] ∧
    (updatedCall sampleCall idOnlyPayload).outcome = none := by
  refine ⟨rfl, ?_,
    (C10_outcome_cleared idOnlyPayload storeWithCall okEnv 1 sampleCall
      rfl rfl rfl).2 sampleCall⟩
  rw [(C10_outcome_cleared idOnlyPayload storeWithCall okEnv 1 sampleCall
      rfl rfl rfl).1]
  rfl

/-- The head surviving `dropWhile jsIsWs` is not whitespace. -/
theorem head_dropWhile_ws (s : JStr) (c : Char)
    (h : (s.dropWhile jsIsWs).head? = some c) : jsIsWs c = false := by
  induction s with
  | nil => simp [List.dropWhile] at h
  | cons x t ih =>
    rw [List.dropWhile_cons] at h
    split at h
    · exact ih h
    · next hx =>
      simp only [List.head?_cons, Option.some.injEq] at h
      subst h
      exact Bool.not_eq_true _ ▸ (by simpa using hx)

/-- `jsTrimRight` is Mathlib's `rdropWhile` on whitespace. -/
theorem jsTrimRight_eq (s : JStr) : jsTrimRight s = List.rdropWhile jsIsWs s := rfl

/-- Trimming is idempotent on the right. -/
theorem jsTrimRight_idem (s : JStr) :
    jsTrimRight (jsTrimRight s) = jsTrimRight s := by
  rw [jsTrimRight_eq, jsTrimRight_eq]
  exact List.rdropWhile_idempotent _ _

/-- Trimming is idempotent. -/
theorem jsTrim_idem (s : JStr) : jsTrim (jsTrim s) = jsTrim s := by
  unfold jsTrim
  have hleft : jsTrimLeft (jsTrimRight (jsTrimLeft s)) = jsTrimRight (jsTrimLeft s) := by
    cases hr : jsTrimRight (jsTrimLeft s) with
    | nil => rfl
    | cons c rest =>
      have hpre : jsTrimRight (jsTrimLeft s) <+: jsTrimLeft s := by
        rw [jsTrimRight_eq]
        exact List.rdropWhile_prefix _ _
      have hhead : (jsTrimLeft s).head? = some c := by
        obtain ⟨t, ht⟩ := hpre
        rw [← ht, hr]
        rfl
      have hws : jsIsWs c = false := head_dropWhile_ws s c hhead
      unfold jsTrimLeft
      rw [List.dropWhile_cons]
      simp [hws]
  rw [hleft, jsTrimRight_idem]

/-- Every entry of a parsed comma list is nonempty and is its own trim. -/
theorem parseCommaList_entries (x : Option JStr) (e : JStr)
    (he : e ∈ parseCommaList x) : e ≠ [] ∧ jsTrim e = e := by
  unfold parseCommaList at he
  split at he
  · simp at he
  · split at he
    · simp at he
    · rw [List.mem_filter] at he
      obtain ⟨hmap, hne⟩ := he
      rw [List.mem_map] at hmap
      obtain ⟨y, _, rfl⟩ := hmap
      refine ⟨?_, jsTrim_idem y⟩
      simpa using hne

/-- C9: on every record this handler creates or rewrites, the stored
strengths and weaknesses are exactly the comma-split, trimmed,
empties-dropped lists of the corresponding payload field — so every stored
entry is nonempty and free of surrounding whitespace — and an absent input
field stores the empty list. -/
theorem C9_comma_lists (p : Payload) (st : Store) (env : Env) (r : SalesCall)
    (hmem : r ∈ (otteraiAnalyze p st env).store.salesCalls)
    (hnew : r ∉ st.salesCalls) :
    r.strengths = parseCommaList (p.sentiment_analysis.bind (fun a => a.strengths)) ∧
    r.weaknesses = parseCommaList (p.sentiment_analysis.bind (fun a => a.weaknesses)) ∧
    (∀ e ∈ r.strengths, e ≠ [] ∧ jsTrim e = e) ∧
    (∀ e ∈ r.weaknesses, e ≠ [] ∧ jsTrim e = e) ∧
    (p.sentiment_analysis.bind (fun a => a.strengths) = none → r.strengths = []) ∧
    (p.sentiment_analysis.bind (fun a => a.weaknesses) = none → r.weaknesses = []) := by
  have hshape := new_record_shape p st env r hmem hnew
  have hs : r.strengths
      = parseCommaList (p.sentiment_analysis.bind (fun a => a.strengths)) := by
    rcases hshape with ⟨c, _, rfl⟩ | rfl <;> rfl
  have hw : r.weaknesses
      = parseCommaList (p.sentiment_analysis.bind (fun a => a.weaknesses)) := by
    rcases hshape with ⟨c, _, rfl⟩ | rfl <;> rfl
  refine ⟨hs, hw, ?_, ?_, ?_, ?_⟩
  · rw [hs]
    exact fun e he => parseCommaList_entries _ e he
  · rw [hw]
    exact fun e he => parseCommaList_entries _ e he
  · intro h0
    rw [hs, h0]
    rfl
  · intro h0
    rw [hw, h0]
    rfl

/-- Witness for C9: `" rapport ,  , discovery"` stores
`["rapport", "discovery"]`, `","` stores `[]`, and the theorem applies to
the created record. -/
theorem C9_witness :
    (newCall listPayload 1).strengths = ["rapport".data, "discovery".data] ∧
    (newCall listPayload 1).weaknesses = [] ∧
    ("rapport".data ≠ [] ∧ jsTrim "rapport".data = "rapport".data) := by
  refine ⟨rfl, rfl,
    (C9_comma_lists listPayload emptyStore okEnv (newCall listPayload 1)
      ?_ (List.not_mem_nil _)).2.2.1 "rapport".data ?_⟩
  · rw [salesCalls_of_analyze, salesCallStep_create _ _ _ rfl rfl]
    exact List.mem_append_right _ (List.mem_singleton.mpr rfl)
  · decide

/-- `isPrefixOf` decides the existence of a completing tail. -/
theorem isPrefixOf_exists (n h : JStr) :
    n.isPrefixOf h = true ↔ ∃ t, h = n ++ t := by
  induction n generalizing h with
  | nil => simp [List.isPrefixOf]
  | cons a as ih =>
    cases h with
    | nil => simp [List.isPrefixOf]
    | cons b bs =>
      simp only [List.isPrefixOf, Bool.and_eq_true, beq_iff_eq, ih,
        List.cons_append, List.cons.injEq]
      constructor
      · rintro ⟨rfl, t, rfl⟩
        exact ⟨t, rfl, rfl⟩
      · rintro ⟨t, rfl, rfl⟩
        exact ⟨rfl, t, rfl⟩

/-- `jsIncludes` decides substring containment. -/
theorem jsIncludes_substr (hay needle : JStr) :
    jsIncludes hay needle = true ↔ SubStr needle hay := by
  induction hay with
  | nil =>
    simp only [jsIncludes, SubStr, List.isEmpty_iff]
    constructor
    · rintro rfl
      exact ⟨[], [], rfl⟩
    · rintro ⟨a, b, hab⟩
      rcases List.append_eq_nil.mp hab.symm with ⟨h1, h2⟩
      exact (List.append_eq_nil.mp h1).2
  | cons x t ih =>
    simp only [jsIncludes, Bool.or_eq_true, ih, isPrefixOf_exists, SubStr]
    constructor
    · rintro (⟨u, hu⟩ | ⟨a, b, rfl⟩)
      · exact ⟨[], u, by simpa using hu⟩
      · exact ⟨x :: a, b, rfl⟩
    · rintro ⟨a, b, hab⟩
      cases a with
      | nil => exact Or.inl ⟨b, by simpa using hab⟩
      | cons c a2 =>
        simp only [List.cons_append, List.cons.injEq] at hab
        obtain ⟨rfl, rfl⟩ := hab
        exact Or.inr ⟨a2, b, rfl⟩

/-- C7: the sentiment mapper yields `positive` whenever the lower-cased
category contains a positive-family keyword (even alongside a
negative-family keyword, since that family is checked first), `negative`
when only a negative-family keyword occurs, `neutral` otherwise, and stays
absent when no category is supplied. -/
theorem C7_sentiment_mapper :
    mapSentiment none = none ∧
    ∀ s : JStr, s ≠ [] →
      ((∃ kw ∈ posFamily, SubStr kw (jsToLower s)) →
        mapSentiment (some s) = some .positive) ∧
      ((¬ ∃ kw ∈ posFamily, SubStr kw (jsToLower s)) →
        (∃ kw ∈ negFamily, SubStr kw (jsToLower s)) →
        mapSentiment (some s) = some .negative) ∧
      ((¬ ∃ kw ∈ posFamily, SubStr kw (jsToLower s)) →
        (¬ ∃ kw ∈ negFamily, SubStr kw (jsToLower s)) →
        mapSentiment (some s) = some .neutral) := by
  refine ⟨rfl, fun s hs => ?_⟩
  have hne : s.isEmpty = false := by simpa [List.isEmpty_iff] using hs
  have hpos : (∃ kw ∈ posFamily, SubStr kw (jsToLower s)) ↔
      (jsIncludes (jsToLower s) "positive".data ||
        jsIncludes (jsToLower s) "impressive".data ||
        jsIncludes (jsToLower s) "good".data) = true := by
    simp [posFamily, jsIncludes_substr, or_assoc]
  have hneg : (∃ kw ∈ negFamily, SubStr kw (jsToLower s)) ↔
      (jsIncludes (jsToLower s) "negative".data ||
        jsIncludes (jsToLower s) "bad".data ||
        jsIncludes (jsToLower s) "ugly".data) = true := by
    simp [negFamily, jsIncludes_substr, or_assoc]
  refine ⟨?_, ?_, ?_⟩
  · intro h
    rw [hpos] at h
    simp [mapSentiment, hne, h]
  · intro hnp hn
    have h1 : (jsIncludes (jsToLower s) "positive".data ||
        jsIncludes (jsToLower s) "impressive".data ||
        jsIncludes (jsToLower s) "good".data) = false := by
      cases hc : (jsIncludes (jsToLower s) "positive".data ||
          jsIncludes (jsToLower s) "impressive".data ||
          jsIncludes (jsToLower s) "good".data)
      · rfl
      · exact absurd (hpos.mpr hc) hnp
    rw [hneg] at hn
    simp [mapSentiment, hne, h1, hn]
  · intro hnp hnn
    have h1 : (jsIncludes (jsToLower s) "positive".data ||
        jsIncludes (jsToLower s) "impressive".data ||
        jsIncludes (jsToLower s) "good".data) = false := by
      cases hc : (jsIncludes (jsToLower s) "positive".data ||
          jsIncludes (jsToLower s) "impressive".data ||
          jsIncludes (jsToLower s) "good".data)
      · rfl
      · exact absurd (hpos.mpr hc) hnp
    have h2 : (jsIncludes (jsToLower s) "negative".data ||
        jsIncludes (jsToLower s) "bad".data ||
        jsIncludes (jsToLower s) "ugly".data) = false := by
      cases hc : (jsIncludes (jsToLower s) "negative".data ||
          jsIncludes (jsToLower s) "bad".data ||
          jsIncludes (jsToLower s) "ugly".data)
      · rfl
      · exact absurd (hneg.mpr hc) hnn
    simp [mapSentiment, hne, h1, h2]

/-- Witness for C7 at `"good but ugly"`: a category containing keywords
from both families resolves to positive. -/
theorem C7_witness :
    mapSentiment (some "good but ugly".data) = some .positive :=
  (C7_sentiment_mapper.2 "good but ugly".data (by decide)).1
    ⟨"good".data, by simp [posFamily], [], " but ugly".data, by decide⟩

theorem ne_of_digit (c : Char) (h : jsIsDigit c = true) (d : Char)
    (hd : jsIsDigit d = false) : c ≠ d := fun e => by rw [e, hd] at h; cases h

theorem digit_not_ws (c : Char) (h : jsIsDigit c = true) : jsIsWs c = false := by
  have h1 : c ≠ ' ' := ne_of_digit c h ' ' (by decide)
  have h2 : c ≠ '\t' := ne_of_digit c h '\t' (by decide)
  have h3 : c ≠ '\n' := ne_of_digit c h '\n' (by decide)
  have h4 : c ≠ '\r' := ne_of_digit c h '\r' (by decide)
  have h5 : c ≠ '\x0b' := ne_of_digit c h '\x0b' (by decide)
  have h6 : c ≠ '\x0c' := ne_of_digit c h '\x0c' (by decide)
  simp [jsIsWs, h1, h2, h3, h4, h5, h6]

theorem takeDigits_all (ds rest : JStr) (h1 : ∀ c ∈ ds, jsIsDigit c = true)
    (h2 : ∀ c, rest.head? = some c → jsIsDigit c = false) :
    takeDigits (ds ++ rest) = (ds, rest) := by
  induction ds with
  | nil =>
    cases rest with
    | nil => rfl
    | cons r rt =>
      rw [List.nil_append]
      simp only [takeDigits]
      rw [h2 r rfl]
      simp
  | cons d dt ih =>
    simp only [List.cons_append, takeDigits, List.append_eq]
    rw [h1 d (List.mem_cons_self _ _)]
    simp only [if_true]
    rw [ih (fun c hc => h1 c (List.mem_cons_of_mem _ hc))]

theorem jsParseInt_digits (ds rest : JStr) (hne : ds ≠ [])
    (hd : ∀ c ∈ ds, jsIsDigit c = true)
    (h2 : ∀ c, rest.head? = some c → jsIsDigit c = false) :
    jsParseInt (ds ++ rest) = some (digitsVal ds) := by
  cases ds with
  | nil => exact absurd rfl hne
  | cons d dt =>
    have hdd : jsIsDigit d = true := hd d (List.mem_cons_self _ _)
    have hdrop : (d :: dt ++ rest).dropWhile jsIsWs = d :: (dt ++ rest) := by
      rw [List.cons_append, List.dropWhile_cons, digit_not_ws d hdd]
      simp
    simp only [jsParseInt, hdrop]
    rw [if_neg (ne_of_digit d hdd '-' (by decide)),
      if_neg (ne_of_digit d hdd '+' (by decide))]
    unfold jsParseInt.leadNat
    rw [show d :: (dt ++ rest) = (d :: dt) ++ rest from rfl, takeDigits_all _ _ hd h2]
    rfl

theorem contains_of_mem {s : JStr} {c : Char} (h : c ∈ s) : s.contains c = true := by
  simp [List.contains]
  exact h

theorem contains_eq_false {s : JStr} {c : Char} (h : ∀ x ∈ s, x ≠ c) :
    s.contains c = false := by
  simp [List.contains]
  intro hx
  exact absurd rfl (h c hx)

theorem jsSplit_no_sep (sep : Char) (s : JStr) (h : ∀ c ∈ s, c ≠ sep) :
    jsSplit sep s = [s] := by
  induction s with
  | nil => rfl
  | cons c t ih =>
    simp only [jsSplit]
    rw [if_neg (h c (List.mem_cons_self _ _))]
    rw [ih (fun x hx => h x (List.mem_cons_of_mem _ hx))]

theorem jsSplit_append (sep : Char) (a b : JStr) (h : ∀ c ∈ a, c ≠ sep) :
    jsSplit sep (a ++ sep :: b) = a :: jsSplit sep b := by
  induction a with
  | nil =>
    rw [List.nil_append]
    simp [jsSplit]
  | cons c t ih =>
    simp only [List.cons_append, jsSplit, List.append_eq]
    rw [if_neg (h c (List.mem_cons_self _ _))]
    rw [ih (fun x hx => h x (List.mem_cons_of_mem _ hx))]

theorem jsParseFloat_digits (ds : JStr) (hne : ds ≠ [])
    (hd : ∀ c ∈ ds, jsIsDigit c = true) :
    jsParseFloat ds = .num (digitsVal ds) := by
  cases ds with
  | nil => exact absurd rfl hne
  | cons d dt =>
    have hdd : jsIsDigit d = true := hd d (List.mem_cons_self _ _)
    have hdrop : (d :: dt).dropWhile jsIsWs = d :: dt := by
      rw [List.dropWhile_cons, digit_not_ws d hdd]
      simp
    simp only [jsParseFloat, hdrop]
    rw [if_neg (ne_of_digit d hdd '-' (by decide)),
      if_neg (ne_of_digit d hdd '+' (by decide))]
    unfold jsParseFloat.signed
    rw [show d :: dt = (d :: dt) ++ [] from (List.append_nil _).symm,
      takeDigits_all _ _ hd (by intro c hc; cases hc)]
    simp [digitsVal]

theorem jsRound_natCast (n : Nat) : jsRound ((n : ℚ)) = n := by
  unfold jsRound
  rw [add_comm, show ((n : ℚ)) = (((n : ℤ) : ℚ)) by push_cast; ring,
    Int.floor_add_int]
  norm_num

theorem jsRemoveFirst_append (c : Char) (a b : JStr) (h : ∀ x ∈ a, x ≠ c) :
    jsRemoveFirst c (a ++ c :: b) = a ++ b := by
  induction a with
  | nil =>
    rw [List.nil_append, List.nil_append]
    simp [jsRemoveFirst]
  | cons x t ih =>
    simp only [List.cons_append, jsRemoveFirst, List.append_eq]
    rw [if_neg (h x (List.mem_cons_self _ _))]
    rw [ih (fun y hy => h y (List.mem_cons_of_mem _ hy))]

theorem isEmpty_false_of_ne {ds : JStr} (hne : ds ≠ []) : ds.isEmpty = false := by
  simpa [List.isEmpty_iff] using hne

theorem matchHM_m (ds : JStr) (hne : ds ≠ []) (hd : ∀ c ∈ ds, jsIsDigit c = true) :
    matchHoursMinutes (ds ++ ['m']) = (0, digitsVal ds) := by
  have ht := takeDigits_all ds ['m'] hd
    (by intro c hc; simp at hc; subst hc; decide)
  have hie := isEmpty_false_of_ne hne
  simp only [matchHoursMinutes, ht]
  simp [hie]

theorem matchHM_hm (hs ms : JStr) (hne1 : hs ≠ []) (hne2 : ms ≠ [])
    (hd1 : ∀ c ∈ hs, jsIsDigit c = true) (hd2 : ∀ c ∈ ms, jsIsDigit c = true) :
    matchHoursMinutes (hs ++ ('h' :: ' ' :: (ms ++ ['m'])))
      = (digitsVal hs, digitsVal ms) := by
  have ht1 := takeDigits_all hs ('h' :: ' ' :: (ms ++ ['m'])) hd1
    (by intro c hc; simp at hc; subst hc; decide)
  have hdropms : (ms ++ ['m']).dropWhile jsIsWs = ms ++ ['m'] := by
    cases ms with
    | nil => exact absurd rfl hne2
    | cons m0 mt =>
      rw [List.cons_append, List.dropWhile_cons,
        digit_not_ws m0 (hd2 m0 (List.mem_cons_self _ _))]
      simp
  have hdrop : (' ' :: (ms ++ ['m'])).dropWhile jsIsWs = ms ++ ['m'] := by
    rw [List.dropWhile_cons]
    simp only [show jsIsWs ' ' = true from rfl, if_true]
    exact hdropms
  have ht2 := takeDigits_all ms ['m'] hd2
    (by intro c hc; simp at hc; subst hc; decide)
  have hie1 := isEmpty_false_of_ne hne1
  have hie2 := isEmpty_false_of_ne hne2
  simp only [matchHoursMinutes, ht1]
  simp [hie1, hie2, hdrop, ht2]

theorem digits_ne_all {ds : JStr} (hd : ∀ c ∈ ds, jsIsDigit c = true) (d : Char)
    (hnd : jsIsDigit d = false) : ∀ x ∈ ds, x ≠ d :=
  fun x hx => ne_of_digit x (hd x hx) d hnd

theorem jsParseInt_all (ds : JStr) (hne : ds ≠ [])
    (hd : ∀ c ∈ ds, jsIsDigit c = true) :
    jsParseInt ds = some (digitsVal ds) := by
  have h := jsParseInt_digits ds [] hne hd (by intro c hc; cases hc)
  rwa [List.append_nil] at h

theorem ne_nil_append {a : JStr} (b : JStr) (h : a ≠ []) : a ++ b ≠ [] := by
  cases a with
  | nil => exact absurd rfl h
  | cons x t => simp

theorem parseDuration_hms (hs ms ss : JStr) (h1 : DigitStr hs) (h2 : DigitStr ms)
    (h3 : DigitStr ss) :
    parseDuration (some (hs ++ (':' :: (ms ++ (':' :: ss)))))
      = some (.num (digitsVal hs * 3600 + digitsVal ms * 60 + digitsVal ss)) := by
  obtain ⟨hne1, hd1⟩ := h1
  obtain ⟨hne2, hd2⟩ := h2
  obtain ⟨hne3, hd3⟩ := h3
  have hie : (hs ++ (':' :: (ms ++ (':' :: ss)))).isEmpty = false :=
    isEmpty_false_of_ne (ne_nil_append _ hne1)
  have hct : (hs ++ (':' :: (ms ++ (':' :: ss)))).contains ':' = true :=
    contains_of_mem (by simp)
  have hsplit : jsSplit ':' (hs ++ (':' :: (ms ++ (':' :: ss)))) = [hs, ms, ss] := by
    rw [jsSplit_append ':' hs _ (digits_ne_all hd1 ':' (by decide)),
      jsSplit_append ':' ms _ (digits_ne_all hd2 ':' (by decide)),
      jsSplit_no_sep ':' ss (digits_ne_all hd3 ':' (by decide))]
  have hp1 := jsParseInt_all hs hne1 hd1
  have hp2 := jsParseInt_all ms hne2 hd2
  have hp3 := jsParseInt_all ss hne3 hd3
  simp only [parseDuration, hie, hct, hsplit]
  simp [hp1, hp2, hp3]

theorem parseDuration_ms2 (ms ss : JStr) (h2 : DigitStr ms) (h3 : DigitStr ss) :
    parseDuration (some (ms ++ (':' :: ss)))
      = some (.num (digitsVal ms * 60 + digitsVal ss)) := by
  obtain ⟨hne2, hd2⟩ := h2
  obtain ⟨hne3, hd3⟩ := h3
  have hie : (ms ++ (':' :: ss)).isEmpty = false :=
    isEmpty_false_of_ne (ne_nil_append _ hne2)
  have hct : (ms ++ (':' :: ss)).contains ':' = true := contains_of_mem (by simp)
  have hsplit : jsSplit ':' (ms ++ (':' :: ss)) = [ms, ss] := by
    rw [jsSplit_append ':' ms _ (digits_ne_all hd2 ':' (by decide)),
      jsSplit_no_sep ':' ss (digits_ne_all hd3 ':' (by decide))]
  have hp2 := jsParseInt_all ms hne2 hd2
  have hp3 := jsParseInt_all ss hne3 hd3
  simp only [parseDuration, hie, hct, hsplit]
  simp [hp2, hp3]

theorem parseDuration_h1 (hs : JStr) (h1 : DigitStr hs) :
    parseDuration (some (hs ++ ['h'])) = some (.num (digitsVal hs * 3600)) := by
  obtain ⟨hne1, hd1⟩ := h1
  have hie : (hs ++ ['h']).isEmpty = false :=
    isEmpty_false_of_ne (ne_nil_append _ hne1)
  have hcc : (hs ++ ['h']).contains ':' = false := by
    apply contains_eq_false
    intro x hx
    rcases List.mem_append.mp hx with hx | hx
    · exact digits_ne_all hd1 ':' (by decide) x hx
    · simp at hx
      subst hx
      decide
  have hcm : (hs ++ ['h']).contains 'm' = false := by
    apply contains_eq_false
    intro x hx
    rcases List.mem_append.mp hx with hx | hx
    · exact digits_ne_all hd1 'm' (by decide) x hx
    · simp at hx
      subst hx
      decide
  have hch : (hs ++ ['h']).contains 'h' = true := contains_of_mem (by simp)
  have hrm : jsRemoveFirst 'h' (hs ++ ['h']) = hs := by
    have h := jsRemoveFirst_append 'h' hs [] (digits_ne_all hd1 'h' (by decide))
    rwa [List.append_nil] at h
  have hpf := jsParseFloat_digits hs hne1 hd1
  have hround : jsRound ((digitsVal hs : ℚ) * 3600) = ((digitsVal hs * 3600 : Nat) : Int) := by
    rw [show ((digitsVal hs : ℚ) * 3600) = ((digitsVal hs * 3600 : Nat) : ℚ) by push_cast; ring]
    exact jsRound_natCast _
  simp only [parseDuration, hie, hcc, hcm, hch, hrm, hpf]
  simp [hround]

theorem parseDuration_hm (hs ms : JStr) (h1 : DigitStr hs) (h2 : DigitStr ms) :
    parseDuration (some (hs ++ ('h' :: ' ' :: (ms ++ ['m']))))
      = some (.num (digitsVal hs * 3600 + digitsVal ms * 60)) := by
  obtain ⟨hne1, hd1⟩ := h1
  obtain ⟨hne2, hd2⟩ := h2
  have hie : (hs ++ ('h' :: ' ' :: (ms ++ ['m']))).isEmpty = false :=
    isEmpty_false_of_ne (ne_nil_append _ hne1)
  have hmem : ∀ x ∈ hs ++ ('h' :: ' ' :: (ms ++ ['m'])),
      x ∈ hs ∨ x = 'h' ∨ x = ' ' ∨ x ∈ ms ∨ x = 'm' := by
    intro x hx
    simpa using hx
  have hcc : (hs ++ ('h' :: ' ' :: (ms ++ ['m']))).contains ':' = false := by
    apply contains_eq_false
    intro x hx
    rcases hmem x hx with hx | hx | hx | hx | hx
    · exact digits_ne_all hd1 ':' (by decide) x hx
    · subst hx; decide
    · subst hx; decide
    · exact digits_ne_all hd2 ':' (by decide) x hx
    · subst hx; decide
  have hcm : (hs ++ ('h' :: ' ' :: (ms ++ ['m']))).contains 'm' = true :=
    contains_of_mem (by simp)
  have hhm := matchHM_hm hs ms hne1 hne2 hd1 hd2
  simp only [parseDuration, hie, hcc, hcm, hhm]
  simp

theorem parseDuration_m1 (ms : JStr) (h1 : DigitStr ms) :
    parseDuration (some (ms ++ ['m'])) = some (.num (digitsVal ms * 60)) := by
  obtain ⟨hne1, hd1⟩ := h1
  have hie : (ms ++ ['m']).isEmpty = false :=
    isEmpty_false_of_ne (ne_nil_append _ hne1)
  have hcc : (ms ++ ['m']).contains ':' = false := by
    apply contains_eq_false
    intro x hx
    rcases List.mem_append.mp hx with hx | hx
    · exact digits_ne_all hd1 ':' (by decide) x hx
    · simp at hx
      subst hx
      decide
  have hcm : (ms ++ ['m']).contains 'm' = true := contains_of_mem (by simp)
  have hmm := matchHM_m ms hne1 hd1
  simp only [parseDuration, hie, hcc, hcm, hmm]
  simp

theorem parseDuration_bare (ds : JStr) (h1 : DigitStr ds)
    (hz : digitsVal ds ≠ 0) :
    parseDuration (some ds) = some (.num (digitsVal ds)) := by
  obtain ⟨hne1, hd1⟩ := h1
  have hie := isEmpty_false_of_ne hne1
  have hcc : ds.contains ':' = false :=
    contains_eq_false (digits_ne_all hd1 ':' (by decide))
  have hcm : ds.contains 'm' = false :=
    contains_eq_false (digits_ne_all hd1 'm' (by decide))
  have hch : ds.contains 'h' = false :=
    contains_eq_false (digits_ne_all hd1 'h' (by decide))
  have hp := jsParseInt_all ds hne1 hd1
  simp only [parseDuration, hie, hcc, hcm, hch, hp]
  simp [hz]

theorem parseDuration_bare_zero (ds : JStr) (h1 : DigitStr ds)
    (hz : digitsVal ds = 0) :
    parseDuration (some ds) = none := by
  obtain ⟨hne1, hd1⟩ := h1
  have hie := isEmpty_false_of_ne hne1
  have hcc : ds.contains ':' = false :=
    contains_eq_false (digits_ne_all hd1 ':' (by decide))
  have hcm : ds.contains 'm' = false :=
    contains_eq_false (digits_ne_all hd1 'm' (by decide))
  have hch : ds.contains 'h' = false :=
    contains_eq_false (digits_ne_all hd1 'h' (by decide))
  have hp := jsParseInt_all ds hne1 hd1
  simp only [parseDuration, hie, hcc, hcm, hch, hp]
  simp [hz]

/-- C6 counterexample: the claim says every string outside the listed
duration forms yields no duration, and that every bare integer string
yields its value; but `"5x"` (not of any listed form) parses to 5 seconds
through `parseInt`, and the bare integer `"0"` yields no duration because
`0` is falsy in `parseInt(s) || null`. -/
theorem C6_counterexample :
    parseDuration (some "5x".data) = some (.num 5) ∧
    parseDuration (some "0".data) = none := by
  constructor
  · rfl
  · rfl

/-- C6 (amended): for the forms `H:M:S`, `M:S`, `Nh`, `Nh Mm`, `Nm` with
nonempty digit components, the parser returns the corresponding
integer-seconds value, and a bare digit string returns its value when it is
nonzero; a bare zero degrades to absent, and (being a total function) the
parser never throws, but a string outside these forms may yield a numeric
value rather than absent. -/
theorem C6_amended :
    (∀ hs ms ss, DigitStr hs → DigitStr ms → DigitStr ss →
      parseDuration (some (hs ++ (':' :: (ms ++ (':' :: ss)))))
        = some (.num (digitsVal hs * 3600 + digitsVal ms * 60 + digitsVal ss))) ∧
    (∀ ms ss, DigitStr ms → DigitStr ss →
      parseDuration (some (ms ++ (':' :: ss)))
        = some (.num (digitsVal ms * 60 + digitsVal ss))) ∧
    (∀ hs, DigitStr hs →
      parseDuration (some (hs ++ ['h'])) = some (.num (digitsVal hs * 3600))) ∧
    (∀ hs ms, DigitStr hs → DigitStr ms →
      parseDuration (some (hs ++ ('h' :: ' ' :: (ms ++ ['m']))))
        = some (.num (digitsVal hs * 3600 + digitsVal ms * 60))) ∧
    (∀ ms, DigitStr ms →
      parseDuration (some (ms ++ ['m'])) = some (.num (digitsVal ms * 60))) ∧
    (∀ ds, DigitStr ds → digitsVal ds ≠ 0 →
      parseDuration (some ds) = some (.num (digitsVal ds))) ∧
    (∀ ds, DigitStr ds → digitsVal ds = 0 → parseDuration (some ds) = none) ∧
    parseDuration none = none :=
  ⟨parseDuration_hms, parseDuration_ms2, parseDuration_h1, parseDuration_hm,
    parseDuration_m1, parseDuration_bare, parseDuration_bare_zero, rfl⟩

/-- Witness for C6: `"1h 30m"` parses to 5400 seconds and `"00:45:30"` to
2730 seconds, by the amended theorem. -/
theorem C6_witness :
    parseDuration (some "1h 30m".data) = some (.num 5400) ∧
    parseDuration (some "00:45:30".data) = some (.num 2730) := by
  have e1 : digitsVal ['1'] = 1 := by decide
  have e2 : digitsVal ['3', '0'] = 30 := by decide
  have e3 : digitsVal ['0', '0'] = 0 := by decide
  have e4 : digitsVal ['4', '5'] = 45 := by decide
  constructor
  · have h := C6_amended.2.2.2.1 ['1'] ['3', '0'] (by decide) (by decide)
    rw [e1, e2] at h
    exact h.trans (by norm_num)
  · have h := C6_amended.1 ['0', '0'] ['4', '5'] ['3', '0']
      (by decide) (by decide) (by decide)
    rw [e3, e4, e2] at h
    exact h.trans (by norm_num)

/-- The response's creation flag is the resolvedness of `createdSalesCallId`. -/
theorem created_of_analyze (p : Payload) (st : Store) (env : Env) :
    (otteraiAnalyze p st env).salesCallCreated
      = (salesCallStep p st env).2.isSome := rfl

/-- The exposed `createdSalesCallId` is the id resolved by the sales-call step. -/
theorem createdId_of_analyze (p : Payload) (st : Store) (env : Env) :
    (otteraiAnalyze p st env).createdSalesCallId
      = (salesCallStep p st env).2 := rfl

/-- `data.salesCallId` is `createdSalesCallId || salesCallId`. -/
theorem dataId_of_analyze (p : Payload) (st : Store) (env : Env) :
    (otteraiAnalyze p st env).dataSalesCallId
      = (if (salesCallStep p st env).2.isSome then (salesCallStep p st env).2
         else p.salesCallId) := rfl

/-- The handler always acknowledges with `success: true`. -/
theorem success_of_analyze (p : Payload) (st : Store) (env : Env) :
    (otteraiAnalyze p st env).success = true := rfl

/-- The handler always answers HTTP 200 after validation. -/
theorem status_of_analyze (p : Payload) (st : Store) (env : Env) :
    (otteraiAnalyze p st env).status = 200 := rfl

/-- The analytics block is entered iff sentiment analysis is present and an
id was resolved or supplied. -/
theorem attempted_of_analyze (p : Payload) (st : Store) (env : Env) :
    (otteraiAnalyze p st env).analyticsAttempted
      = (p.sentiment_analysis.isSome &&
          (if (salesCallStep p st env).2.isSome then (salesCallStep p st env).2
           else p.salesCallId).isSome) := rfl

/-- The final analytics rows: appended iff the guard held and the insert did
not throw. -/
theorem analytics_of_analyze (p : Payload) (st : Store) (env : Env) :
    (otteraiAnalyze p st env).store.analytics
      = (if (p.sentiment_analysis.isSome &&
            (if (salesCallStep p st env).2.isSome then (salesCallStep p st env).2
             else p.salesCallId).isSome) && !env.analyticsFail then
          (salesCallStep p st env).1.analytics ++
            [mkAnalytics p (analyticsOrgId p (salesCallStep p st env).1 env)
              (if (salesCallStep p st env).2.isSome then (salesCallStep p st env).2
               else p.salesCallId)]
        else (salesCallStep p st env).1.analytics) := by
  unfold otteraiAnalyze
  dsimp only
  rw [apply_ite (fun s : Store => s.analytics)]

/-- C1 counterexample: a request supplying `salesCallId = 1` against an
empty store creates nothing — the claimed 'exactly one new record' does not
appear, and the handler reports no creation. -/
theorem C1_counterexample :
    findByPk emptyStore 1 = none ∧
    (otteraiAnalyze idOnlyPayload emptyStore okEnv).store.salesCalls = [] ∧
    (otteraiAnalyze idOnlyPayload emptyStore okEnv).salesCallCreated = false := by
  refine ⟨rfl, ?_, rfl⟩
  rw [salesCalls_of_analyze,
    salesCallStep_missing idOnlyPayload emptyStore okEnv 1 rfl rfl rfl]
  rfl

/-- C1 (amended): supplying a `salesCallId` for which no record exists
leaves the sales-call store unchanged and reports no creation (the create
branch runs only when no `salesCallId` is supplied); when no id is supplied
and the step does not throw, exactly one new record is appended, with
status `completed`, outcome absent and sale amount absent. -/
theorem C1_amended (p : Payload) (st : Store) (env : Env) :
    (∀ i, p.salesCallId = some i → findByPk st i = none →
      (otteraiAnalyze p st env).store.salesCalls = st.salesCalls ∧
      (otteraiAnalyze p st env).salesCallCreated = false) ∧
    (p.salesCallId = none → env.salesCallFail = false →
      (otteraiAnalyze p st env).store.salesCalls
        = st.salesCalls ++ [newCall p st.nextId] ∧
      (newCall p st.nextId).status = "completed".data ∧
      (newCall p st.nextId).outcome = none ∧
      (newCall p st.nextId).sale_amount = none ∧
      (otteraiAnalyze p st env).salesCallCreated = true) := by
  constructor
  · intro i hid hfind
    cases hfe : env.salesCallFail with
    | true =>
      have hstep := salesCallStep_fail p st env hfe
      exact ⟨by simp [salesCalls_of_analyze, hstep],
        by simp [created_of_analyze, hstep]⟩
    | false =>
      have hstep := salesCallStep_missing p st env i hfe hid hfind
      exact ⟨by simp [salesCalls_of_analyze, hstep],
        by simp [created_of_analyze, hstep]⟩
  · intro hid hfe
    have hstep := salesCallStep_create p st env hfe hid
    exact ⟨by simp [salesCalls_of_analyze, hstep], rfl, rfl, rfl,
      by simp [created_of_analyze, hstep]⟩

/-- Witness for C1: the unseen-id request creates nothing; the id-less
request creates a record. -/
theorem C1_witness :
    (otteraiAnalyze idOnlyPayload emptyStore okEnv).salesCallCreated = false ∧
    (otteraiAnalyze emptyPayload emptyStore okEnv).salesCallCreated = true :=
  ⟨((C1_amended idOnlyPayload emptyStore okEnv).1 1 rfl rfl).2,
    ((C1_amended emptyPayload emptyStore okEnv).2 rfl rfl).2.2.2.2⟩

/-- C2 counterexample: updating `sampleCall` (outcome `"won"`, score 5)
with a payload carrying only the record id clears the outcome and the
performance score, though the claim says only the listed fields are
modified and no populated field is regressed. -/
theorem C2_counterexample :
    sampleCall.outcome = some "won".data ∧
    sampleCall.performance_score = some (.num 5) ∧
    (otteraiAnalyze idOnlyPayload storeWithCall okEnv).store.salesCalls
      = [updatedCall sampleCall idOnlyPayload] ∧
    (updatedCall sampleCall idOnlyPayload).outcome = none ∧
    (updatedCall sampleCall idOnlyPayload).performance_score = none := by
  refine ⟨rfl, rfl, ?_, rfl, rfl⟩
  rw [salesCalls_of_analyze,
    salesCallStep_found idOnlyPayload storeWithCall okEnv 1 sampleCall rfl rfl rfl]
  rfl

/-- C2 (amended): an update rewrites exactly the found row; identity,
customer, appointment, status and sale-amount columns are untouched;
duration, start/end timestamps, transcript URL, recording URL and
recording id fall back to the stored value when the payload omits them;
but outcome is cleared, recommendations/key topics/objections and script
compliance are reset, and score, strengths, weaknesses and sentiment are
overwritten from the payload even when it omits them. -/
theorem C2_amended (p : Payload) (st : Store) (env : Env) (i : Nat)
    (sc : SalesCall) (hid : p.salesCallId = some i)
    (hfind : findByPk st i = some sc) (hok : env.salesCallFail = false) :
    (otteraiAnalyze p st env).store.salesCalls
      = st.salesCalls.map (fun c => if c.id == i then updatedCall c p else c) ∧
    ∀ c : SalesCall,
      ((updatedCall c p).id = c.id ∧
        (updatedCall c p).organization_id = c.organization_id ∧
        (updatedCall c p).sales_representative_id = c.sales_representative_id ∧
        (updatedCall c p).customer_name = c.customer_name ∧
        (updatedCall c p).customer_email = c.customer_email ∧
        (updatedCall c p).appointment_date = c.appointment_date ∧
        (updatedCall c p).status = c.status ∧
        (updatedCall c p).sale_amount = c.sale_amount) ∧
      (p.meeting_details.bind (fun m => m.duration) = none →
        (updatedCall c p).duration = c.duration) ∧
      (p.meeting_details.bind (fun m => m.start_datetime) = none →
        (updatedCall c p).call_start_time = c.call_start_time) ∧
      (p.meeting_details.bind (fun m => m.end_datetime) = none →
        (updatedCall c p).call_end_time = c.call_end_time) ∧
      (p.transcript = none →
        (updatedCall c p).transcript_url = c.transcript_url) ∧
      (p.captured_data_url = none →
        (updatedCall c p).recording_url = c.recording_url) ∧
      (p.meeting_id = none →
        (updatedCall c p).otter_ai_recording_id = c.otter_ai_recording_id) ∧
      ((updatedCall c p).outcome = none ∧
        (updatedCall c p).recommendations = [] ∧
        (updatedCall c p).key_topics_covered = [] ∧
        (updatedCall c p).objections_handled = [] ∧
        (updatedCall c p).script_compliance = none) ∧
      (p.sentiment_analysis = none →
        (updatedCall c p).performance_score = none ∧
        (updatedCall c p).strengths = [] ∧
        (updatedCall c p).weaknesses = [] ∧
        (updatedCall c p).customer_sentiment = none) := by
  constructor
  · rw [salesCalls_of_analyze, salesCallStep_found p st env i sc hok hid hfind]
  · intro c
    refine ⟨⟨rfl, rfl, rfl, rfl, rfl, rfl, rfl, rfl⟩, ?_, ?_, ?_, ?_, ?_, ?_,
      ⟨rfl, rfl, rfl, rfl, rfl⟩, ?_⟩
    · intro h0
      simp [updatedCall, h0, parseDuration, jsNumOr, truthyN]
    · intro h0
      simp [updatedCall, h0, truthyS]
    · intro h0
      simp [updatedCall, h0, truthyS]
    · intro h0
      simp [updatedCall, h0, jsOrS, truthyS]
    · intro h0
      simp [updatedCall, h0, jsOrS, truthyS]
    · intro h0
      simp [updatedCall, h0, jsOrS, truthyS]
    · intro h0
      simp [updatedCall, h0, computePerfScore, truthyS, parseCommaList,
        mapSentiment]

/-- Witness for C2: an id-only payload preserves `sampleCall`'s stored
duration and transcript URL. -/
theorem C2_witness :
    (updatedCall sampleCall idOnlyPayload).duration = sampleCall.duration ∧
    (updatedCall sampleCall idOnlyPayload).transcript_url
      = sampleCall.transcript_url :=
  ⟨((C2_amended idOnlyPayload storeWithCall okEnv 1 sampleCall rfl rfl rfl).2
      sampleCall).2.1 rfl,
    ((C2_amended idOnlyPayload storeWithCall okEnv 1 sampleCall rfl rfl rfl).2
      sampleCall).2.2.2.2.1 rfl⟩

/-- C3 counterexample: updating an existing record leaves the row count
unchanged yet the response reports `salesCallCreated = true`, contradicting
the claim that the flag is true only for creations. -/
theorem C3_counterexample :
    (otteraiAnalyze idOnlyPayload storeWithCall okEnv).store.salesCalls.length
      = storeWithCall.salesCalls.length ∧
    (otteraiAnalyze idOnlyPayload storeWithCall okEnv).salesCallCreated = true := by
  constructor
  · rw [salesCalls_of_analyze,
      salesCallStep_found idOnlyPayload storeWithCall okEnv 1 sampleCall rfl rfl rfl]
    simp
  · rfl

/-- C3 (amended): `data.salesCallId` is the resolved id
(`createdSalesCallId || salesCallId`), and `salesCallCreated` is the
truthiness of `createdSalesCallId` — which is set on the update path too,
so the flag means 'created or updated', not 'created'. -/
theorem C3_amended (p : Payload) (st : Store) (env : Env) :
    ((otteraiAnalyze p st env).salesCallCreated
      = (otteraiAnalyze p st env).createdSalesCallId.isSome) ∧
    ((otteraiAnalyze p st env).dataSalesCallId
      = if (otteraiAnalyze p st env).createdSalesCallId.isSome
        then (otteraiAnalyze p st env).createdSalesCallId else p.salesCallId) ∧
    (∀ i sc, p.salesCallId = some i → findByPk st i = some sc →
      env.salesCallFail = false →
      (otteraiAnalyze p st env).salesCallCreated = true ∧
      (otteraiAnalyze p st env).dataSalesCallId = some i ∧
      (otteraiAnalyze p st env).store.salesCalls.length
        = st.salesCalls.length) ∧
    (p.salesCallId = none → env.salesCallFail = false →
      (otteraiAnalyze p st env).salesCallCreated = true ∧
      (otteraiAnalyze p st env).dataSalesCallId = some st.nextId) := by
  refine ⟨rfl, rfl, ?_, ?_⟩
  · intro i sc hid hfind hok
    have hstep := salesCallStep_found p st env i sc hok hid hfind
    refine ⟨by simp [created_of_analyze, hstep],
      by simp [dataId_of_analyze, hstep], ?_⟩
    rw [salesCalls_of_analyze, hstep]
    simp
  · intro hid hok
    have hstep := salesCallStep_create p st env hok hid
    exact ⟨by simp [created_of_analyze, hstep],
      by simp [dataId_of_analyze, hstep]⟩

/-- Witness for C3: the update-path response carries the supplied id and a
true creation flag. -/
theorem C3_witness :
    (otteraiAnalyze idOnlyPayload storeWithCall okEnv).salesCallCreated = true ∧
    (otteraiAnalyze idOnlyPayload storeWithCall okEnv).dataSalesCallId = some 1 :=
  ⟨((C3_amended idOnlyPayload storeWithCall okEnv).2.2.1 1 sampleCall
      rfl rfl rfl).1,
    ((C3_amended idOnlyPayload storeWithCall okEnv).2.2.1 1 sampleCall
      rfl rfl rfl).2.1⟩

/-- C4 counterexample: with tenant 7 absent from the store, the created
call record keeps `organization_id = 7` (not absent as claimed); only the
analytics record is written with a null tenant reference. -/
theorem C4_counterexample :
    emptyStore.organizations.contains 7 = false ∧
    strangerOrgPayload.organizationId = some 7 ∧
    ((otteraiAnalyze strangerOrgPayload emptyStore okEnv).store.salesCalls.map
      (fun c => c.organization_id)) = [some 7] ∧
    ((otteraiAnalyze strangerOrgPayload emptyStore okEnv).store.analytics.map
      (fun a => a.organization_id)) = [none] ∧
    (otteraiAnalyze strangerOrgPayload emptyStore okEnv).success = true := by
  refine ⟨rfl, rfl, ?_, ?_, rfl⟩
  · rw [salesCalls_of_analyze,
      salesCallStep_create strangerOrgPayload emptyStore okEnv rfl rfl]
    rfl
  · rfl

/-- C4 (amended): a request whose tenant id exists nowhere still creates
both records and returns success, but only the Analytics record has its
tenant reference nulled by the existence check; the call record stores the
supplied (dangling) organization id unchanged. -/
theorem C4_amended (p : Payload) (st : Store) (env : Env) (oid : Nat)
    (horg : p.organizationId = some oid)
    (hmem : st.organizations.contains oid = false)
    (hid : p.salesCallId = none) (hsa : p.sentiment_analysis.isSome = true)
    (hok : env = okEnv) :
    (otteraiAnalyze p st env).store.salesCalls
      = st.salesCalls ++ [newCall p st.nextId] ∧
    (newCall p st.nextId).organization_id = some oid ∧
    (otteraiAnalyze p st env).store.analytics
      = st.analytics ++ [mkAnalytics p none (some st.nextId)] ∧
    (mkAnalytics p none (some st.nextId)).organization_id = none ∧
    (otteraiAnalyze p st env).success = true ∧
    (otteraiAnalyze p st env).status = 200 := by
  subst hok
  have hstep := salesCallStep_create p st okEnv rfl hid
  refine ⟨by simp [salesCalls_of_analyze, hstep], by simp [newCall, horg],
    ?_, rfl, rfl, rfl⟩
  have hmem2 : oid ∉ st.organizations := by simpa using hmem
  rw [analytics_of_analyze, hstep]
  simp [hsa, analyticsOrgId, horg, hmem2, okEnv]

/-- Witness for C4 at tenant id 7 against the empty store. -/
theorem C4_witness :
    (otteraiAnalyze strangerOrgPayload emptyStore okEnv).success = true ∧
    (newCall strangerOrgPayload 1).organization_id = some 7 ∧
    (mkAnalytics strangerOrgPayload none (some 1)).organization_id = none :=
  ⟨(C4_amended strangerOrgPayload emptyStore okEnv 7 rfl rfl rfl rfl
      rfl).2.2.2.2.1,
    (C4_amended strangerOrgPayload emptyStore okEnv 7 rfl rfl rfl rfl rfl).2.1,
    (C4_amended strangerOrgPayload emptyStore okEnv 7 rfl rfl rfl rfl
      rfl).2.2.2.1⟩

/-- C5 counterexample: when the sales-call step throws on a request with
sentiment analysis and no supplied id, the analytics block is never
entered (no analytics record), though the endpoint still returns success —
the claim's 'still attempts the Analytics Record' fails. -/
theorem C5_counterexample :
    strangerOrgPayload.sentiment_analysis.isSome = true ∧
    strangerOrgPayload.salesCallId = none ∧
    failEnv.salesCallFail = true ∧
    (otteraiAnalyze strangerOrgPayload emptyStore failEnv).analyticsAttempted
      = false ∧
    (otteraiAnalyze strangerOrgPayload emptyStore failEnv).store.analytics = [] ∧
    (otteraiAnalyze strangerOrgPayload emptyStore failEnv).success = true := by
  exact ⟨rfl, rfl, rfl, rfl, rfl, rfl⟩

/-- C5 (amended): when the sales-call step fails, the endpoint still
returns a 200 success and the sales-call rows are unchanged; the analytics
insert is attempted only if sentiment analysis is present AND a
`salesCallId` was supplied (a failed create resolves no id), in which case
the analytics record carrying the full raw payload is appended. -/
theorem C5_amended (p : Payload) (st : Store) (env : Env)
    (hfail : env.salesCallFail = true) :
    (otteraiAnalyze p st env).success = true ∧
    (otteraiAnalyze p st env).status = 200 ∧
    (otteraiAnalyze p st env).store.salesCalls = st.salesCalls ∧
    ((otteraiAnalyze p st env).analyticsAttempted
      = (p.sentiment_analysis.isSome && p.salesCallId.isSome)) ∧
    (p.sentiment_analysis.isSome = true → p.salesCallId.isSome = true →
      env.analyticsFail = false →
      (otteraiAnalyze p st env).store.analytics
        = st.analytics ++ [mkAnalytics p (analyticsOrgId p st env) p.salesCallId]) := by
  have hstep := salesCallStep_fail p st env hfail
  refine ⟨rfl, rfl, by simp [salesCalls_of_analyze, hstep],
    by simp [attempted_of_analyze, hstep], ?_⟩
  intro hsa hsid haf
  rw [analytics_of_analyze, hstep]
  simp [hsa, hsid, haf]

/-- Witness for C5: with a supplied id and sentiment analysis, a failed
upsert still appends the analytics record and returns success. -/
theorem C5_witness :
    (otteraiAnalyze idSentimentPayload storeWithCall failEnv).success = true ∧
    (otteraiAnalyze idSentimentPayload storeWithCall failEnv).store.analytics
      = storeWithCall.analytics ++
          [mkAnalytics idSentimentPayload
            (analyticsOrgId idSentimentPayload storeWithCall failEnv)
            idSentimentPayload.salesCallId] :=
  ⟨(C5_amended idSentimentPayload storeWithCall failEnv rfl).1,
    (C5_amended idSentimentPayload storeWithCall failEnv rfl).2.2.2.2 rfl rfl rfl⟩
